import Mathlib

/-!
Verification of the udpmonitor core: a shallow embedding of
`src/udpmonitor/storage.py` (SQLite-backed message store),
`src/udpmonitor/udp_listener.py` (UDP receive/echo loop) and
`main.py` (retention scheduler), together with theorems settling the
specification claims about them.

Modelling conventions:
- bytes are `List Nat` (each element the value of one byte);
- decoded text is `List Nat` (one element per Unicode code point);
- timestamps are `Nat` time values.  The source stores
  `datetime.utcnow().isoformat()` strings and compares them with SQL
  string comparison; for the fixed format emitted by `isoformat` the
  lexicographic (byte-wise) order of those strings coincides with
  chronological order, so `Nat` with its usual order is a faithful model
  of the comparisons the code performs;
- SQLite rows are a `List Message` kept in insertion (rowid) order, and
  the `AUTOINCREMENT` sequence (the largest id ever assigned, kept by
  SQLite in `sqlite_sequence` and never reset by `DELETE`) is the `seq`
  field of `Storage`;
- a fallible operation returns `Except String`.
-/

namespace UDPMonitor

/-- One step of strict UTF-8 decoding: consume the encoding of one code
point from the front of the byte sequence and return it with the
remaining bytes, or `none` when the front is not a valid encoding.
The acceptance ranges are those of RFC 3629 strict UTF-8 (no overlong
forms, no surrogates, nothing above U+10FFFF), which is what CPython's
`bytes.decode` with the default strict error handler implements. -/
def utf8DecodeOne : List Nat → Option (Nat × List Nat)
  | [] => none
  | b :: rest =>
    if b ≤ 0x7F then some (b, rest)
    else if 0xC2 ≤ b ∧ b ≤ 0xDF then
      match rest with
      | b1 :: rest2 =>
        if 0x80 ≤ b1 ∧ b1 ≤ 0xBF then
          some ((b - 0xC0) * 0x40 + (b1 - 0x80), rest2)
        else none
      | [] => none
    else if 0xE0 ≤ b ∧ b ≤ 0xEF then
      match rest with
      | b1 :: b2 :: rest2 =>
        if (if b = 0xE0 then 0xA0 else 0x80) ≤ b1 ∧ b1 ≤ (if b = 0xED then 0x9F else 0xBF) ∧
            0x80 ≤ b2 ∧ b2 ≤ 0xBF then
          some ((b - 0xE0) * 0x1000 + (b1 - 0x80) * 0x40 + (b2 - 0x80), rest2)
        else none
      | _ => none
    else if 0xF0 ≤ b ∧ b ≤ 0xF4 then
      match rest with
      | b1 :: b2 :: b3 :: rest2 =>
        if (if b = 0xF0 then 0x90 else 0x80) ≤ b1 ∧ b1 ≤ (if b = 0xF4 then 0x8F else 0xBF) ∧
            0x80 ≤ b2 ∧ b2 ≤ 0xBF ∧ 0x80 ≤ b3 ∧ b3 ≤ 0xBF then
          some ((b - 0xF0) * 0x40000 + (b1 - 0x80) * 0x1000 + (b2 - 0x80) * 0x40 + (b3 - 0x80), rest2)
        else none
      | _ => none
    else none

/-- Iterate `utf8DecodeOne` over the whole byte sequence.  Each
successful step consumes at least one byte, so a fuel of the sequence
length is always enough (`utf8DecodeLoop_congr` below makes the fuel
irrelevance precise); the fuel only serves structural recursion. -/
def utf8DecodeLoop : Nat → List Nat → Option (List Nat)
  | _, [] => some []
  | 0, _ :: _ => none
  | fuel + 1, b :: tail =>
    match utf8DecodeOne (b :: tail) with
    | none => none
    | some (c, rest) => (utf8DecodeLoop fuel rest).map fun cs => c :: cs

/-- Strict UTF-8 decoding of a byte sequence into its code points.
This embeds the Python standard-library call `data.decode('utf-8')`
used by `MessageStorage.store_message` (storage.py line 71): `none`
models the `UnicodeDecodeError` outcome. -/
def utf8Decode (bs : List Nat) : Option (List Nat) := utf8DecodeLoop bs.length bs

/-- Standard UTF-8 encoding of a single code point. -/
def utf8EncodeChar (c : Nat) : List Nat :=
  if c ≤ 0x7F then [c]
  else if c ≤ 0x7FF then [0xC0 + c / 0x40, 0x80 + c % 0x40]
  else if c ≤ 0xFFFF then [0xE0 + c / 0x1000, 0x80 + c / 0x40 % 0x40, 0x80 + c % 0x40]
  else [0xF0 + c / 0x40000, 0x80 + c / 0x1000 % 0x40, 0x80 + c / 0x40 % 0x40, 0x80 + c % 0x40]

/-- Standard UTF-8 encoding of a sequence of code points. -/
def utf8Encode (cs : List Nat) : List Nat := (cs.map utf8EncodeChar).flatten

/-- One row of the `messages` table (storage.py lines 32-42). -/
structure Message where
  id : Nat
  timestamp : Nat
  client_ip : String
  client_port : Nat
  data : List Nat
  data_text : Option (List Nat)
  data_size : Nat
  deriving Repr, DecidableEq

/-- The persistent state behind one `MessageStorage`: the `messages`
table rows in rowid order, plus the `AUTOINCREMENT` sequence value
(largest id ever assigned; `DELETE` does not reset it). -/
structure Storage where
  seq : Nat
  messages : List Message
  deriving Repr, DecidableEq

/-- A freshly initialised database (`MessageStorage._init_db`). -/
def emptyStorage : Storage := ⟨0, []⟩

/-- `MessageStorage.store_message` (storage.py lines 54-87).  `now` is
the value of `datetime.utcnow()` at the call.  The row is appended with
id `seq + 1` (the `INTEGER PRIMARY KEY AUTOINCREMENT` rule: one more
than the largest id ever assigned) and the new id is returned. -/
def store_message (now : Nat) (client_ip : String) (client_port : Nat)
    (data : List Nat) (s : Storage) : Nat × Storage :=
  let data_size := data.length
  let data_text := utf8Decode data
  let id := s.seq + 1
  (id, ⟨id, s.messages ++ [⟨id, now, client_ip, client_port, data, data_text, data_size⟩]⟩)

/-- Python truthiness of an optional integer argument (`if limit:`,
`if client_port:` in storage.py lines 116, 125, 129): `None` and `0`
are both falsy. -/
def truthyNat : Option Nat → Option Nat
  | none => none
  | some 0 => none
  | some (n + 1) => some (n + 1)

/-- Python truthiness of an optional string argument (`if client_ip:`
in storage.py line 112): `None` and the empty string are both falsy. -/
def truthyStr : Option String → Option String
  | none => none
  | some "" => none
  | some s => some s

/-- The `WHERE` clause built by `get_messages` (storage.py lines
110-121) applied to one row: exact match on each filter that made it
into the query. -/
def matchesFilters (ipF : Option String) (portF : Option Nat) (m : Message) : Bool :=
  (match ipF with
   | none => true
   | some i => m.client_ip == i) &&
  (match portF with
   | none => true
   | some p => m.client_port == p)

/-- The comparison behind `ORDER BY timestamp DESC`: `a` may come
before `b` when the timestamp of `b` is not larger. -/
def tsGE (a b : Message) : Prop := b.timestamp ≤ a.timestamp

instance : DecidableRel tsGE := fun a b => Nat.decLe b.timestamp a.timestamp

instance : IsTotal Message tsGE := ⟨fun a b => Nat.le_total b.timestamp a.timestamp⟩

instance : IsTrans Message tsGE := ⟨fun _ _ _ hab hbc => Nat.le_trans hbc hab⟩

/-- `ORDER BY timestamp DESC` (storage.py line 123): the rows sorted by
timestamp, most recent first. -/
def orderByTimestampDesc (l : List Message) : List Message := List.insertionSort tsGE l

/-- The row set produced by the `SELECT ... [WHERE ...] ORDER BY
timestamp DESC` part of `get_messages`: the rows matching the filters
that made it into the query, ordered by timestamp descending. -/
def queryRows (s : Storage) (ipF : Option String) (portF : Option Nat) : List Message :=
  orderByTimestampDesc (s.messages.filter (matchesFilters ipF portF))

/-- `MessageStorage.get_messages` (storage.py lines 89-162).  The query
string is assembled from the truthy arguments: a `WHERE` clause for the
truthy filters, `ORDER BY timestamp DESC`, a `LIMIT ?` clause only when
`limit` is truthy and an `OFFSET ?` clause only when `offset` is truthy.
SQLite accepts `OFFSET` only after `LIMIT`, so a truthy offset together
with a falsy limit produces `... ORDER BY timestamp DESC OFFSET ?`,
which `cursor.execute` rejects with an `OperationalError`; that outcome
is the `Except.error` branch.  (The subsequent per-row rendering of
`data` to text or hex does not change which rows are returned or their
order, so the result here is the row list itself.) -/
def get_messages (s : Storage) (limit offset : Option Nat)
    (client_ip : Option String) (client_port : Option Nat) : Except String (List Message) :=
  let rows := queryRows s (truthyStr client_ip) (truthyNat client_port)
  match truthyNat limit, truthyNat offset with
  | some l, some o => Except.ok ((rows.drop o).take l)
  | some l, none => Except.ok (rows.take l)
  | none, some _ => Except.error "near OFFSET: syntax error"
  | none, none => Except.ok rows

/-- `MessageStorage.get_message_count` (storage.py lines 164-172):
`SELECT COUNT(*) FROM messages`. -/
def get_message_count (s : Storage) : Nat := s.messages.length

/-- `MessageStorage.clear_messages` (storage.py lines 174-181):
`DELETE FROM messages`.  The `AUTOINCREMENT` sequence survives. -/
def clear_messages (s : Storage) : Storage := { s with messages := [] }

/-- `MessageStorage.delete_old_messages` (storage.py lines 183-207).
`now` is the value of `datetime.utcnow()` at the call and `age` the
retention window in the same time unit, so `cutoff = now - age`
(`datetime.utcnow() - timedelta(days=days)`).  Under the lock the code
first counts the rows with `timestamp < cutoff`, then deletes exactly
those rows, and returns the count. -/
def delete_old_messages (now age : Nat) (s : Storage) : Nat × Storage :=
  let cutoff := now - age
  let count := s.messages.countP fun m => decide (m.timestamp < cutoff)
  (count, { s with messages := s.messages.filter fun m => !decide (m.timestamp < cutoff) })

/-! ## UDP listener (`src/udpmonitor/udp_listener.py`) -/

/-- The bytes of `b"ECHO:"` (udp_listener.py line 78). -/
def echoHeader : List Nat := [0x45, 0x43, 0x48, 0x4F, 0x3A]

/-- The buffer size passed to `recvfrom` (udp_listener.py line 67).
The operating system truncates a UDP datagram longer than the buffer:
`recvfrom(4096)` delivers only the first 4096 bytes of the payload. -/
def RECV_BUFSIZE : Nat := 4096

/-- One turn of the `while self.running` receive loop is driven by what
the socket layer does: either `recvfrom` raises `socket.error` (as it
does once `stop()` closes the socket, or on a genuine socket fault), or
a datagram arrives from `(client_ip, client_port)` carrying `payload`
bytes.  `storeOk` is false when `store_message` raises (the
`StorageError` case: sqlite3 errors are not `socket.error`, so they hit
the generic `except Exception` handler); `sendOk` is false when
`sendto` raises `socket.error`. -/
inductive LoopEvent where
  | recvError
  | datagram (client_ip : String) (client_port : Nat) (payload : List Nat)
      (storeOk : Bool) (sendOk : Bool)

/-- The observable outcome of one turn of the receive loop:
the storage afterwards, the echo datagram sent (destination address,
destination port, bytes) if any, whether the loop goes on to the next
`recvfrom`, and which of the two log lines for failures were printed
(`"Socket error: ..."` from line 97, `"Error processing message: ..."`
from line 100). -/
structure StepResult where
  storage : Storage
  echo : Option (String × Nat × List Nat)
  continues : Bool
  socketErrorLogged : Bool
  processingErrorLogged : Bool
  deriving Repr, DecidableEq

/-- The body of `UDPListener._run`'s receive loop (udp_listener.py
lines 64-100) for one event.  `running` is `self.running` at the moment
an exception is handled (line 96).  Control flow embedded:
- `recvfrom` raising `socket.error`: the handler logs only when
  `self.running` is still true, then `break`s (lines 95-98);
- datagram: the payload is truncated to the 4096-byte receive buffer;
  `store_message` runs first (lines 71-75); if it raises, the generic
  handler logs and the loop continues, and no echo is sent (lines
  99-100); on success `sendto` sends `b"ECHO:" + data` to the source
  address (lines 77-82); if `sendto` raises `socket.error`, the
  `except socket.error` handler logs (when running) and `break`s. -/
def loopStep (running : Bool) (now : Nat) (s : Storage) : LoopEvent → StepResult
  | .recvError => ⟨s, none, false, running, false⟩
  | .datagram ip port payload storeOk sendOk =>
    let data := payload.take RECV_BUFSIZE
    if storeOk then
      let s' := (store_message now ip port data s).2
      if sendOk then ⟨s', some (ip, port, echoHeader ++ data), true, false, false⟩
      else ⟨s', none, false, running, false⟩
    else ⟨s, none, true, false, true⟩

/-! ## Retention scheduler (`main.py`, `UDPMonitor._cleanup_worker`) -/

/-- Seconds per day, the period of the scheduler. -/
def SECONDS_PER_DAY : Nat := 86400

/-- The deadline computed in `_cleanup_worker` (main.py lines 58-67),
with `now` in seconds on the local-time axis: `today_midnight` is
`now.replace(hour=0, minute=0, second=0, microsecond=0)`, the start of
the current day; when it is not in the future (which is always), the
deadline is the start of the day containing `now + timedelta(days=1)`. -/
def nextMidnight (now : Nat) : Nat :=
  let todayMidnight := now / SECONDS_PER_DAY * SECONDS_PER_DAY
  if todayMidnight ≤ now then (now + SECONDS_PER_DAY) / SECONDS_PER_DAY * SECONDS_PER_DAY
  else todayMidnight

/-- `sleep_seconds = (next_midnight - now).total_seconds()` (line 69). -/
def sleepSecondsUntil (now : Nat) : Nat := nextMidnight now - now

/-- The instant at which the worker wakes from its nightly sleep when a
sleep starts at `now` (main.py lines 72-76): `time.sleep(sleep_seconds)`
has no cancellation mechanism, so the call returns only after the full
duration and `self.running` is examined only then.  A stop request
arriving during the sleep does not shorten it. -/
def workerWakeTime (now : Nat) : Nat := now + sleepSecondsUntil now

/-- Modelled from the spec: "sleep until that instant (or until a stop
signal arrives, whichever is first)" — the wake time of a cancellable
wait that ends at the deadline or at the stop signal `stopAt`,
whichever comes first.  Stated for comparison with `workerWakeTime`,
the wake time the code actually realises. -/
def specWakeTime (now stopAt : Nat) : Nat := min (nextMidnight now) stopAt

/-- The fixed retry delay after a cleanup failure:
`time.sleep(3600)` (main.py line 88). -/
def CLEANUP_RETRY_DELAY : Nat := 3600

/-! ## Serialized store histories

Every `MessageStorage` operation runs its database work while holding
`self.lock`, so a concurrent history of store calls is a sequence of
atomic store steps.  For `delete_old_messages` the cutoff is computed
from the clock *before* the lock is acquired, so inserts may be
serialized between the cutoff computation and the locked count+delete;
such inserts carry timestamps at least the computation time (the clock
does not run backwards), hence at least the cutoff. -/

/-- One serialized store operation: an insert (`store_message`), a
purge (`delete_old_messages` with its `now` and `age`), or a bulk
clear (`clear_messages`). -/
inductive StoreOp where
  | insert (now : Nat) (client_ip : String) (client_port : Nat) (data : List Nat)
  | purge (now age : Nat)
  | clear

/-- Whether a serialized operation is an insert. -/
def StoreOp.isInsert : StoreOp → Bool
  | .insert .. => true
  | _ => false

/-- Apply one serialized store operation to the store state. -/
def applyOp (s : Storage) : StoreOp → Storage
  | .insert now ip port data => (store_message now ip port data s).2
  | .purge now age => (delete_old_messages now age s).2
  | .clear => clear_messages s

/-- Run a sequence of serialized store operations. -/
def runOps (s : Storage) (ops : List StoreOp) : Storage := ops.foldl applyOp s

/-- The store-state invariant behind id assignment: every row id is at
most the `AUTOINCREMENT` sequence value, and the ids of the live rows
are pairwise distinct. -/
def WF (s : Storage) : Prop :=
  (∀ m ∈ s.messages, m.id ≤ s.seq) ∧ (s.messages.map Message.id).Nodup

instance : DecidablePred WF := fun s =>
  inferInstanceAs (Decidable ((∀ m ∈ s.messages, m.id ≤ s.seq) ∧ (s.messages.map Message.id).Nodup))

/-- A store holding one message, timestamped 5 (a concrete fixture). -/
def storeC2 : Storage := (store_message 5 "192.168.1.100" 54321 [77] emptyStorage).2

/-- A store holding one message, timestamped 100 (a concrete fixture). -/
def storeC3 : Storage := (store_message 100 "192.168.1.100" 54321 [72] emptyStorage).2

/-- A store holding two messages, timestamped 10 and 20 (a concrete fixture). -/
def storeC2w : Storage :=
  (store_message 20 "192.168.1.101" 54322 [66]
    (store_message 10 "192.168.1.100" 54321 [65] emptyStorage).2).2

/-! ## Supporting lemmas -/

/-- A code point below 0x80 encodes as the single identical byte. -/
theorem utf8EncodeChar_one {b : Nat} (hb : b ≤ 0x7F) : utf8EncodeChar b = [b] := by
  unfold utf8EncodeChar
  rw [if_pos hb]

/-- Re-encoding a code point produced by a two-byte decode step yields
exactly the two bytes it came from. -/
theorem utf8EncodeChar_two {b b1 : Nat} (hb : 0xC2 ≤ b) (hb2 : b ≤ 0xDF)
    (h1 : 0x80 ≤ b1) (h2 : b1 ≤ 0xBF) :
    utf8EncodeChar ((b - 0xC0) * 0x40 + (b1 - 0x80)) = [b, b1] := by
  unfold utf8EncodeChar
  rw [if_neg (by omega), if_pos (by omega)]
  simp only [List.cons.injEq, and_true]
  omega

/-- Re-encoding a code point produced by a three-byte decode step
yields exactly the three bytes it came from. -/
theorem utf8EncodeChar_three {b b1 b2 : Nat} (hb : 0xE0 ≤ b) (hb2 : b ≤ 0xEF)
    (hE0 : b = 0xE0 → 0xA0 ≤ b1) (h1 : 0x80 ≤ b1) (h2 : b1 ≤ 0xBF)
    (h3 : 0x80 ≤ b2) (h4 : b2 ≤ 0xBF) :
    utf8EncodeChar ((b - 0xE0) * 0x1000 + (b1 - 0x80) * 0x40 + (b2 - 0x80)) = [b, b1, b2] := by
  unfold utf8EncodeChar
  rw [if_neg (by omega), if_neg (by omega), if_pos (by omega)]
  simp only [List.cons.injEq, and_true]
  omega

/-- Re-encoding a code point produced by a four-byte decode step yields
exactly the four bytes it came from. -/
theorem utf8EncodeChar_four {b b1 b2 b3 : Nat} (hb : 0xF0 ≤ b) (hb2 : b ≤ 0xF4)
    (hF0 : b = 0xF0 → 0x90 ≤ b1) (h1 : 0x80 ≤ b1) (h2 : b1 ≤ 0xBF)
    (h3 : 0x80 ≤ b2) (h4 : b2 ≤ 0xBF) (h5 : 0x80 ≤ b3) (h6 : b3 ≤ 0xBF) :
    utf8EncodeChar ((b - 0xF0) * 0x40000 + (b1 - 0x80) * 0x1000 + (b2 - 0x80) * 0x40 + (b3 - 0x80)) =
      [b, b1, b2, b3] := by
  unfold utf8EncodeChar
  rw [if_neg (by omega), if_neg (by omega), if_neg (by omega)]
  simp only [List.cons.injEq, and_true]
  omega

set_option maxRecDepth 4096 in
/-- A successful decode step consumed exactly the encoding of the code
point it returned, and strictly shortened the input. -/
theorem utf8DecodeOne_spec {bs : List Nat} {c : Nat} {rest : List Nat}
    (h : utf8DecodeOne bs = some (c, rest)) :
    utf8EncodeChar c ++ rest = bs ∧ rest.length < bs.length := by
  match bs with
  | [] => simp [utf8DecodeOne] at h
  | b :: tail =>
    rcases tail with _ | ⟨b1, _ | ⟨b2, _ | ⟨b3, rest3⟩⟩⟩ <;>
      · dsimp only [utf8DecodeOne] at h
        split_ifs at h <;>
          first
          | (simp only [Option.some.injEq, Prod.mk.injEq] at h
             obtain ⟨hc, hr⟩ := h
             subst hc
             subst hr
             refine ⟨?_, by simp only [List.length_cons, List.length_nil]; omega⟩
             first
             | (rw [utf8EncodeChar_one (by omega)]; rfl)
             | (rw [utf8EncodeChar_two (by omega) (by omega) (by omega) (by omega)]; rfl)
             | (rw [utf8EncodeChar_three (by omega) (by omega) (by omega) (by omega) (by omega)
                 (by omega) (by omega)]; rfl)
             | (rw [utf8EncodeChar_four (by omega) (by omega) (by omega) (by omega) (by omega)
                 (by omega) (by omega) (by omega) (by omega)]; rfl))
          | simp at h

/-- Soundness of the fueled decoder: a successful decode re-encodes to
the original byte sequence. -/
theorem utf8DecodeLoop_roundtrip : ∀ (fuel : Nat) (bs cs : List Nat),
    utf8DecodeLoop fuel bs = some cs → utf8Encode cs = bs := by
  intro fuel
  induction fuel with
  | zero =>
    intro bs cs h
    cases bs with
    | nil => simp [utf8DecodeLoop] at h; subst h; rfl
    | cons b tail => simp [utf8DecodeLoop] at h
  | succ n ih =>
    intro bs cs h
    cases bs with
    | nil => simp [utf8DecodeLoop] at h; subst h; rfl
    | cons b tail =>
      rw [utf8DecodeLoop] at h
      cases hone : utf8DecodeOne (b :: tail) with
      | none => rw [hone] at h; simp at h
      | some p =>
        obtain ⟨c, rest⟩ := p
        rw [hone] at h
        simp only [Option.map_eq_some'] at h
        obtain ⟨cs', hdec, rfl⟩ := h
        have hspec := utf8DecodeOne_spec hone
        calc utf8Encode (c :: cs') = utf8EncodeChar c ++ utf8Encode cs' := rfl
        _ = utf8EncodeChar c ++ rest := by rw [ih rest cs' hdec]
        _ = b :: tail := hspec.1

/-- Any decoding claimed by `utf8Decode` re-encodes to the original
bytes: the decoder only ever returns the genuine UTF-8 decoding. -/
theorem utf8Encode_utf8Decode {bs cs : List Nat} (h : utf8Decode bs = some cs) :
    utf8Encode cs = bs := utf8DecodeLoop_roundtrip bs.length bs cs h

/-- The fuel of `utf8DecodeLoop` is irrelevant once it covers the input
length, so `utf8Decode` is the limit behaviour of the loop. -/
theorem utf8DecodeLoop_congr : ∀ (f1 : Nat) (bs : List Nat) (f2 : Nat),
    bs.length ≤ f1 → bs.length ≤ f2 → utf8DecodeLoop f1 bs = utf8DecodeLoop f2 bs := by
  intro f1
  induction f1 with
  | zero =>
    intro bs f2 h1 h2
    cases bs with
    | nil => cases f2 <;> simp [utf8DecodeLoop]
    | cons b tail => simp at h1
  | succ n ih =>
    intro bs f2 h1 h2
    cases bs with
    | nil => cases f2 <;> simp [utf8DecodeLoop]
    | cons b tail =>
      cases f2 with
      | zero => simp at h2
      | succ m =>
        rw [utf8DecodeLoop, utf8DecodeLoop]
        cases hone : utf8DecodeOne (b :: tail) with
        | none => rfl
        | some p =>
          obtain ⟨c, rest⟩ := p
          have hlen := (utf8DecodeOne_spec hone).2
          simp only [List.length_cons] at hlen h1 h2
          dsimp only
          rw [ih rest m (by omega) (by omega)]

/-- Applying one serialized store operation preserves the id
invariant: every live id stays at most the sequence value, and live ids
stay pairwise distinct. -/
theorem wf_applyOp (s : Storage) (op : StoreOp) (h : WF s) : WF (applyOp s op) := by
  obtain ⟨hle, hnodup⟩ := h
  cases op with
  | insert now ip port data =>
    constructor
    · intro m hm
      simp only [applyOp, store_message, List.mem_append, List.mem_singleton] at hm
      rcases hm with hm | rfl
      · exact Nat.le_succ_of_le (hle m hm)
      · exact Nat.le_refl _
    · show ((s.messages ++ [_]).map Message.id).Nodup
      rw [List.map_append]
      refine hnodup.append (List.nodup_singleton _) ?_
      intro x hx hx2
      simp only [List.map_cons, List.map_nil, List.mem_singleton] at hx2
      subst hx2
      obtain ⟨m, hm, hid⟩ := List.mem_map.mp hx
      have := hle m hm
      omega
  | purge now age =>
    constructor
    · intro m hm
      exact hle m (List.mem_of_mem_filter hm)
    · exact hnodup.sublist ((List.filter_sublist _).map Message.id)
  | clear =>
    exact ⟨fun m hm => absurd hm (List.not_mem_nil m), List.nodup_nil⟩

/-- No serialized store operation ever decreases the sequence value. -/
theorem seq_le_applyOp (s : Storage) (op : StoreOp) : s.seq ≤ (applyOp s op).seq := by
  cases op with
  | insert now ip port data => exact Nat.le_succ _
  | purge now age => exact Nat.le_refl _
  | clear => exact Nat.le_refl _

/-- The id invariant is preserved along any serialized history. -/
theorem wf_runOps (ops : List StoreOp) (s : Storage) (h : WF s) : WF (runOps s ops) := by
  induction ops generalizing s with
  | nil => exact h
  | cons op ops ih => exact ih (applyOp s op) (wf_applyOp s op h)

/-- The sequence value never decreases along any serialized history. -/
theorem seq_le_runOps (ops : List StoreOp) (s : Storage) : s.seq ≤ (runOps s ops).seq := by
  induction ops generalizing s with
  | nil => exact Nat.le_refl _
  | cons op ops ih => exact Nat.le_trans (seq_le_applyOp s op) (ih (applyOp s op))

/-- Running a concatenated history is running its parts in order. -/
theorem runOps_append (s : Storage) (a b : List StoreOp) :
    runOps s (a ++ b) = runOps (runOps s a) b := List.foldl_append applyOp s a b

/-- A history consisting only of inserts never removes a live record. -/
theorem mem_runOps_insertOnly (ops : List StoreOp) (hops : ∀ op ∈ ops, op.isInsert = true)
    (s : Storage) (m : Message) (hm : m ∈ s.messages) : m ∈ (runOps s ops).messages := by
  induction ops generalizing s with
  | nil => exact hm
  | cons op ops ih =>
    have hop := hops op (List.mem_cons_self op ops)
    have hops' : ∀ o ∈ ops, o.isInsert = true := fun o ho => hops o (List.mem_cons_of_mem _ ho)
    cases op with
    | insert now ip port data =>
      exact ih hops' (applyOp s _) (List.mem_append_left _ hm)
    | purge now age => exact absurd hop (by simp [StoreOp.isInsert])
    | clear => exact absurd hop (by simp [StoreOp.isInsert])

/-! ## Claim theorems -/

/-- C4: every record created by `store_message` from any byte payload
has `data_size` equal to the byte length of the stored payload, and
`data_text` is exactly the strict UTF-8 decoding of the payload:
present iff the payload decodes as valid UTF-8, and any present
decoding re-encodes to the payload exactly.  A decode failure is not an
error: the record is appended unconditionally, with `data_text`
absent. -/
theorem c4_payload_fields (now : Nat) (ip : String) (port : Nat)
    (data : List Nat) (s : Storage) :
    ∃ m : Message,
      (store_message now ip port data s).2.messages = s.messages ++ [m] ∧
      m.data = data ∧
      m.data_size = m.data.length ∧
      m.data_text = utf8Decode m.data ∧
      ∀ cs, m.data_text = some cs → utf8Encode cs = m.data := by
  refine ⟨_, rfl, rfl, rfl, rfl, ?_⟩
  intro cs h
  exact utf8Encode_utf8Decode h

/-- C9: when `stop()` has run (`self.running = False` at line 48
precedes `self.sock.close()` at line 50, so the `socket.error` raised
by the unblocked `recvfrom` is handled with `running = false`), the
loop exits without logging a socket error and leaves the store
untouched; the same socket error with the listener still running is
reported as a genuine fault. -/
theorem c9_shutdown_distinguished (now : Nat) (s : Storage) :
    (loopStep false now s .recvError).socketErrorLogged = false ∧
    (loopStep false now s .recvError).continues = false ∧
    (loopStep false now s .recvError).storage = s ∧
    (loopStep true now s .recvError).socketErrorLogged = true ∧
    (loopStep true now s .recvError).continues = false :=
  ⟨rfl, rfl, rfl, rfl, rfl⟩

/-- C5: the first half checks the claim at a store failure: no echo is
sent, nothing is stored, the generic handler logs and the loop
continues.  The second half evaluates the code at the failing input — a
datagram whose echo `sendto` raises `socket.error`: the record is
stored and no echo is sent as claimed, but the `except socket.error`
handler at udp_listener.py lines 95-98 logs a socket error and leaves
the receive loop (`continues = false`), where the claim requires the
loop to be unaffected. -/
theorem c5_echo_send_failure_behaviour :
    ((loopStep true 7 emptyStorage (.datagram "10.0.0.1" 1234 [65] false true)).echo = none ∧
     (loopStep true 7 emptyStorage (.datagram "10.0.0.1" 1234 [65] false true)).storage =
       emptyStorage ∧
     (loopStep true 7 emptyStorage (.datagram "10.0.0.1" 1234 [65] false true)).continues = true ∧
     (loopStep true 7 emptyStorage
       (.datagram "10.0.0.1" 1234 [65] false true)).processingErrorLogged = true) ∧
    ((loopStep true 7 emptyStorage (.datagram "10.0.0.1" 1234 [65] true false)).echo = none ∧
     get_message_count
       (loopStep true 7 emptyStorage (.datagram "10.0.0.1" 1234 [65] true false)).storage = 1 ∧
     (loopStep true 7 emptyStorage (.datagram "10.0.0.1" 1234 [65] true false)).continues = false ∧
     (loopStep true 7 emptyStorage
       (.datagram "10.0.0.1" 1234 [65] true false)).socketErrorLogged = true) := by
  decide

/-- C6 counterexample: a stop signal at instant 1 during a sleep begun
at instant 0 does not shorten the sleep — the worker wakes at the full
deadline 86400, not at the stop instant the claim requires
(`time.sleep` has no cancellation; `self.running` is only read after
the sleep returns). -/
theorem c6_stop_not_prompt_counterexample :
    specWakeTime 0 1 = 1 ∧ workerWakeTime 0 = 86400 ∧
    workerWakeTime 0 ≠ specWakeTime 0 1 := by decide

/-- C6 (amended): the worker computes the next occurrence of local
midnight strictly after `now` (the least multiple of 86400 seconds
beyond `now`), sleeps the full duration with an uninterruptible sleep —
waking exactly at that midnight, not at an earlier stop signal — and on
a store failure waits the fixed 3600-second retry delay.  Shutdown is
not blocked only because the worker thread is a daemon thread that
`stop()` never joins; the sleep itself is not cancelled. -/
theorem c6_scheduler_amended (now : Nat) :
    now < nextMidnight now ∧
    nextMidnight now % SECONDS_PER_DAY = 0 ∧
    (∀ m, m % SECONDS_PER_DAY = 0 → now < m → nextMidnight now ≤ m) ∧
    workerWakeTime now = nextMidnight now ∧
    CLEANUP_RETRY_DELAY = 3600 := by
  have hnm : nextMidnight now = (now + SECONDS_PER_DAY) / SECONDS_PER_DAY * SECONDS_PER_DAY := by
    unfold nextMidnight
    rw [if_pos (Nat.div_mul_le_self now SECONDS_PER_DAY)]
  unfold SECONDS_PER_DAY at hnm
  refine ⟨?_, ?_, ?_, ?_, rfl⟩
  · rw [hnm]; omega
  · rw [hnm]; unfold SECONDS_PER_DAY; omega
  · intro m h1 h2
    unfold SECONDS_PER_DAY at h1
    rw [hnm]
    omega
  · unfold workerWakeTime sleepSecondsUntil
    rw [hnm]
    omega

/-- C1 (amended): for a payload of at most `RECV_BUFSIZE = 4096` bytes,
with no fault injected, the loop sends exactly one reply datagram equal
to `b"ECHO:" + payload` — of length `len(payload) + 5` — back to the
source address and port, and keeps receiving.  (The claimed bound 65507
fails: `recvfrom(4096)` truncates longer datagrams, see the
counterexample.) -/
theorem c1_echo_reply_amended (now : Nat) (s : Storage) (ip : String) (port : Nat)
    (payload : List Nat) (h : payload.length ≤ RECV_BUFSIZE) :
    (loopStep true now s (.datagram ip port payload true true)).echo =
      some (ip, port, echoHeader ++ payload) ∧
    (echoHeader ++ payload).length = payload.length + 5 ∧
    (loopStep true now s (.datagram ip port payload true true)).continues = true := by
  have htake : payload.take RECV_BUFSIZE = payload := List.take_of_length_le h
  refine ⟨?_, ?_, ?_⟩
  · simp [loopStep, htake]
  · simp only [List.length_append, echoHeader, List.length_cons, List.length_nil]
    omega
  · simp [loopStep]

/-- Witness for C1 at the binary example `b"\x00\x01\xff"`. -/
theorem c1_echo_reply_amended_witness :
    (loopStep true 3 emptyStorage (.datagram "192.168.1.100" 54321 [0, 1, 255] true true)).echo =
      some ("192.168.1.100", 54321, echoHeader ++ [0, 1, 255]) :=
  (c1_echo_reply_amended 3 emptyStorage "192.168.1.100" 54321 [0, 1, 255] (by decide)).1

/-- C1 counterexample: a 4097-byte datagram is truncated by
`recvfrom(4096)`, so the reply is not `b"ECHO:"` followed by the full
payload — the 65507-byte bound claimed does not hold on this code. -/
theorem c1_truncation_counterexample :
    (loopStep true 0 emptyStorage
        (.datagram "10.0.0.1" 1234 (List.replicate 4097 0) true true)).echo ≠
      some ("10.0.0.1", 1234, echoHeader ++ List.replicate 4097 0) := by
  have htr : (List.replicate 4097 (0 : Nat)).take RECV_BUFSIZE = List.replicate 4096 0 := by
    rw [List.take_replicate, Nat.min_eq_left (by decide)]
    rfl
  have hstep : (loopStep true 0 emptyStorage
      (.datagram "10.0.0.1" 1234 (List.replicate 4097 0) true true)).echo =
      some ("10.0.0.1", 1234, echoHeader ++ (List.replicate 4097 (0 : Nat)).take RECV_BUFSIZE) :=
    rfl
  rw [hstep, htr]
  intro h
  simp only [Option.some.injEq, Prod.mk.injEq, true_and] at h
  have hlen := congrArg List.length h
  simp only [List.length_append, List.length_replicate, echoHeader,
    List.length_cons, List.length_nil] at hlen
  omega

/-- C3 counterexample: with `age = 0` the cutoff is the purge's own
`now`, and the `timestamp < cutoff` comparison is strict, so a record
whose timestamp equals `now` (inserted within the same clock tick as
the purge) survives: nothing is deleted, the count returned is 0, and
`count()` afterwards is 1 — not everything currently present was
removed. -/
theorem c3_same_instant_counterexample :
    (delete_old_messages 100 0 storeC3).1 = 0 ∧
    get_message_count (delete_old_messages 100 0 storeC3).2 = 1 := by decide

/-- C3 (amended): `delete_old_messages` removes exactly the records
with `timestamp` strictly earlier than `now - age` and returns their
number; when every stored record is timestamped strictly earlier than
the purge's `now` (every record, in particular, inserted at an earlier
clock tick), `age = 0` removes them all, returns the prior count, and
leaves `count()` at 0. -/
theorem c3_delete_amended (now age : Nat) (s : Storage)
    (hall : ∀ m ∈ s.messages, m.timestamp < now) :
    (delete_old_messages now age s).1 =
      s.messages.countP (fun m => decide (m.timestamp < now - age)) ∧
    (delete_old_messages now age s).2.messages =
      s.messages.filter (fun m => !decide (m.timestamp < now - age)) ∧
    (age = 0 →
      (delete_old_messages now age s).1 = get_message_count s ∧
      get_message_count (delete_old_messages now age s).2 = 0) := by
  refine ⟨rfl, rfl, ?_⟩
  rintro rfl
  constructor
  · exact List.countP_eq_length.mpr fun m hm => by
      simp only [Nat.sub_zero, decide_eq_true_eq]
      exact hall m hm
  · have hnil : s.messages.filter (fun m => !decide (m.timestamp < now - 0)) = [] :=
      List.filter_eq_nil_iff.mpr fun m hm => by simp [hall m hm]
    simp only [get_message_count, delete_old_messages]
    rw [hnil]
    rfl

/-- Witness for C3 at a store whose single record is older than the
purge instant. -/
theorem c3_delete_amended_witness :
    (∀ m ∈ storeC3.messages, m.timestamp < 200) ∧
    ((delete_old_messages 200 0 storeC3).1 = get_message_count storeC3 ∧
      get_message_count (delete_old_messages 200 0 storeC3).2 = 0) :=
  ⟨by decide, (c3_delete_amended 200 0 storeC3 (by decide)).2.2 rfl⟩

/-- C2 counterexample: a truthy offset without a truthy limit makes
`get_messages` assemble `... ORDER BY timestamp DESC OFFSET ?`, which
SQLite rejects — the call raises instead of returning the windowed
records the claim promises for every argument combination. -/
theorem c2_offset_without_limit_counterexample :
    get_messages storeC2 none (some 1) none none =
      Except.error "near OFFSET: syntax error" ∧
    (get_messages storeC2 none (some 1) none none).isOk = false :=
  ⟨rfl, rfl⟩

/-- C2 (amended): provided a truthy offset is only supplied together
with a truthy limit (otherwise the assembled SQL is invalid and the
call raises — see the counterexample), `get_messages` succeeds and
returns exactly the rows matching the truthy exact-match filters,
ordered by `timestamp` descending, with the offset window dropped and
the limit then taken after ordering; falsy limit and offset behave as
"no limit" and 0.  The claimed pagination identity holds as stated:
the limit-2/offset-0 page followed by the limit-2/offset-2 page equals
the limit-4/offset-0 page. -/
theorem c2_query_window_amended (s : Storage) (limit offset : Option Nat)
    (ip : Option String) (port : Option Nat)
    (h : truthyNat offset ≠ none → truthyNat limit ≠ none) :
    (∃ res, get_messages s limit offset ip port = Except.ok res ∧
      res = ((queryRows s (truthyStr ip) (truthyNat port)).drop
          ((truthyNat offset).getD 0)).take
          ((truthyNat limit).getD (queryRows s (truthyStr ip) (truthyNat port)).length) ∧
      res.Sorted tsGE) ∧
    (queryRows s (truthyStr ip) (truthyNat port)).Perm
      (s.messages.filter (matchesFilters (truthyStr ip) (truthyNat port))) ∧
    (∃ r1 r2 r4, get_messages s (some 2) (some 0) ip port = Except.ok r1 ∧
      get_messages s (some 2) (some 2) ip port = Except.ok r2 ∧
      get_messages s (some 4) (some 0) ip port = Except.ok r4 ∧ r1 ++ r2 = r4) := by
  have hsorted : (queryRows s (truthyStr ip) (truthyNat port)).Sorted tsGE :=
    List.sorted_insertionSort tsGE _
  refine ⟨?_, List.perm_insertionSort tsGE _, ?_⟩
  · rcases hL : truthyNat limit with _ | l <;> rcases hO : truthyNat offset with _ | o
    · exact ⟨queryRows s (truthyStr ip) (truthyNat port),
        by unfold get_messages; rw [hL, hO],
        by simp,
        hsorted⟩
    · exact absurd hL (h (by rw [hO]; simp))
    · exact ⟨(queryRows s (truthyStr ip) (truthyNat port)).take l,
        by unfold get_messages; rw [hL, hO],
        by simp,
        hsorted.sublist (List.take_sublist l _)⟩
    · exact ⟨((queryRows s (truthyStr ip) (truthyNat port)).drop o).take l,
        by unfold get_messages; rw [hL, hO],
        by simp,
        hsorted.sublist ((List.take_sublist l _).trans (List.drop_sublist o _))⟩
  · refine ⟨(queryRows s (truthyStr ip) (truthyNat port)).take 2,
      ((queryRows s (truthyStr ip) (truthyNat port)).drop 2).take 2,
      (queryRows s (truthyStr ip) (truthyNat port)).take 4, rfl, rfl, rfl, ?_⟩
    rw [show (4 : Nat) = 2 + 2 from rfl]
    exact (List.take_add _ 2 2).symm

/-- Witness for C2 at a concrete two-message store with limit 1 and
offset 1. -/
theorem c2_query_window_amended_witness :
    ∃ res, get_messages storeC2w (some 1) (some 1) none none = Except.ok res ∧
      res = ((queryRows storeC2w (truthyStr none) (truthyNat none)).drop
          ((truthyNat (some 1)).getD 0)).take
          ((truthyNat (some 1)).getD (queryRows storeC2w (truthyStr none) (truthyNat none)).length) ∧
      res.Sorted tsGE :=
  (c2_query_window_amended storeC2w (some 1) (some 1) none none (by decide)).1

/-- C10: falsy arguments of `get_messages` are treated as unspecified —
limit 0 behaves as no limit (all matching records are returned rather
than an empty window), an empty-string source-address filter and a
source-port filter of 0 are ignored rather than matched exactly, and
offset 0 behaves as no offset; moreover without a truthy limit no
offset window is ever applied: any successful call then returns every
matching record. -/
theorem c10_falsy_query_args (s : Storage) (lim off : Option Nat)
    (ip : Option String) (port : Option Nat) :
    get_messages s (some 0) off ip port = get_messages s none off ip port ∧
    get_messages s lim (some 0) ip port = get_messages s lim none ip port ∧
    get_messages s lim off (some "") port = get_messages s lim off none port ∧
    get_messages s lim off ip (some 0) = get_messages s lim off ip none ∧
    (truthyNat lim = none → ∀ res, get_messages s lim off ip port = Except.ok res →
      res = queryRows s (truthyStr ip) (truthyNat port)) := by
  refine ⟨rfl, rfl, rfl, rfl, ?_⟩
  intro hl res hres
  unfold get_messages at hres
  rw [hl] at hres
  cases hoff : truthyNat off with
  | none =>
    rw [hoff] at hres
    simp only [Except.ok.injEq] at hres
    exact hres.symm
  | some o =>
    rw [hoff] at hres
    exact Except.noConfusion hres

/-- C7: every store operation runs under `self.lock`, so a concurrent
history serializes into `runOps`; the purge cutoff is computed before
the lock is taken, so inserts may serialize between the cutoff
computation and the locked count+delete (they then carry timestamps at
least the cutoff, the clock being monotone).  On any such history the
purge is atomic: the count it returns is exactly the number of records
it removes from the state it sees (no double counting), the surviving
rows are exactly those not strictly older than the cutoff (no partial
purge), a record with timestamp at least the cutoff — in particular one
inserted after the cutoff computation — is never lost, later concurrent
inserts lose nothing either, and with a well-formed starting store no
record is ever duplicated (live ids stay pairwise distinct). -/
theorem c7_purge_atomic_wrt_inserts (s0 : Storage) (pre post : List StoreOp) (pnow page : Nat)
    (hpost : ∀ op ∈ post, op.isInsert = true) (hwf : WF s0) :
    (delete_old_messages pnow page (runOps s0 pre)).1 =
      (runOps s0 pre).messages.countP (fun m => decide (m.timestamp < pnow - page)) ∧
    (delete_old_messages pnow page (runOps s0 pre)).1 =
      (runOps s0 pre).messages.length -
        (delete_old_messages pnow page (runOps s0 pre)).2.messages.length ∧
    (delete_old_messages pnow page (runOps s0 pre)).2.messages =
      (runOps s0 pre).messages.filter (fun m => !decide (m.timestamp < pnow - page)) ∧
    (∀ m ∈ (runOps s0 pre).messages, pnow - page ≤ m.timestamp →
      m ∈ (runOps (delete_old_messages pnow page (runOps s0 pre)).2 post).messages) ∧
    (∀ m ∈ (delete_old_messages pnow page (runOps s0 pre)).2.messages,
      m ∈ (runOps (delete_old_messages pnow page (runOps s0 pre)).2 post).messages) ∧
    ((runOps (delete_old_messages pnow page (runOps s0 pre)).2 post).messages.map
      Message.id).Nodup := by
  refine ⟨rfl, ?_, rfl, ?_, ?_, ?_⟩
  · show (runOps s0 pre).messages.countP (fun m => decide (m.timestamp < pnow - page)) =
      (runOps s0 pre).messages.length -
        ((runOps s0 pre).messages.filter (fun m => !decide (m.timestamp < pnow - page))).length
    have hlen := List.length_eq_countP_add_countP
      (fun m => decide (m.timestamp < pnow - page)) (runOps s0 pre).messages
    have hc : (runOps s0 pre).messages.countP
        (fun a => decide ¬(decide (a.timestamp < pnow - page) = true)) =
        (runOps s0 pre).messages.countP (fun a => !decide (a.timestamp < pnow - page)) :=
      List.countP_congr fun a _ => by by_cases hx : a.timestamp < pnow - page <;> simp [hx]
    have hfl : ((runOps s0 pre).messages.filter
        (fun a => !decide (a.timestamp < pnow - page))).length =
        (runOps s0 pre).messages.countP (fun a => !decide (a.timestamp < pnow - page)) :=
      (List.countP_eq_length_filter _ _).symm
    omega
  · intro m hm hts
    apply mem_runOps_insertOnly post hpost
    show m ∈ (runOps s0 pre).messages.filter (fun m => !decide (m.timestamp < pnow - page))
    rw [List.mem_filter]
    refine ⟨hm, ?_⟩
    simp [Nat.not_lt, hts]
  · intro m hm
    exact mem_runOps_insertOnly post hpost _ m hm
  · have hwf1 : WF (runOps s0 pre) := wf_runOps pre s0 hwf
    have hwf2 : WF (delete_old_messages pnow page (runOps s0 pre)).2 :=
      wf_applyOp (runOps s0 pre) (.purge pnow page) hwf1
    exact (wf_runOps post _ hwf2).2

/-- Witness for C7: two inserts before the purge (timestamps 50 and
150), a purge at cutoff 100 and one insert after it. -/
theorem c7_purge_atomic_wrt_inserts_witness :
    (∀ op ∈ ([StoreOp.insert 200 "c" 3 [67]] : List StoreOp), op.isInsert = true) ∧
    WF emptyStorage ∧
    (delete_old_messages 100 0 (runOps emptyStorage
        [StoreOp.insert 50 "a" 1 [65], StoreOp.insert 150 "b" 2 [66]])).1 =
      (runOps emptyStorage
        [StoreOp.insert 50 "a" 1 [65], StoreOp.insert 150 "b" 2 [66]]).messages.countP
        (fun m => decide (m.timestamp < 100 - 0)) :=
  ⟨by decide, by decide,
    (c7_purge_atomic_wrt_inserts emptyStorage
      [StoreOp.insert 50 "a" 1 [65], StoreOp.insert 150 "b" 2 [66]]
      [StoreOp.insert 200 "c" 3 [67]] 100 0 (by decide) (by decide)).1⟩

/-- C8: along any serialized history from a well-formed store the id
invariant holds — live ids are pairwise distinct (unique) and bounded
by the `AUTOINCREMENT` sequence; the next insert is assigned
`seq + 1`, which is strictly larger than every id visible at any
earlier point of the history (ids increase in insertion order), even
when those records have meanwhile been destroyed by a purge or a bulk
clear (the sequence survives deletion, so destroyed ids are never
reused). -/
theorem c8_id_assignment (s0 : Storage) (ops a b : List StoreOp) (hab : ops = a ++ b)
    (hwf : WF s0) (now : Nat) (ip : String) (port : Nat) (data : List Nat) :
    WF (runOps s0 ops) ∧
    ((runOps s0 ops).messages.map Message.id).Nodup ∧
    (store_message now ip port data (runOps s0 ops)).1 = (runOps s0 ops).seq + 1 ∧
    (∀ m ∈ (runOps s0 a).messages, m.id < (store_message now ip port data (runOps s0 ops)).1) := by
  subst hab
  have hwfo : WF (runOps s0 (a ++ b)) := wf_runOps _ s0 hwf
  refine ⟨hwfo, hwfo.2, rfl, ?_⟩
  intro m hm
  have h1 : m.id ≤ (runOps s0 a).seq := (wf_runOps a s0 hwf).1 m hm
  have h2 : (runOps s0 a).seq ≤ (runOps s0 (a ++ b)).seq := by
    rw [runOps_append]
    exact seq_le_runOps b _
  show m.id < (runOps s0 (a ++ b)).seq + 1
  omega

/-- Witness for C8: a record inserted and then destroyed by a purge;
the next insert still gets a strictly larger id. -/
theorem c8_id_assignment_witness :
    (([StoreOp.insert 1 "a" 1 [65]] ++ [StoreOp.purge 2 0] : List StoreOp) =
      [StoreOp.insert 1 "a" 1 [65]] ++ [StoreOp.purge 2 0]) ∧
    WF emptyStorage ∧
    (store_message 9 "b" 2 [66] (runOps emptyStorage
        ([StoreOp.insert 1 "a" 1 [65]] ++ [StoreOp.purge 2 0]))).1 =
      (runOps emptyStorage ([StoreOp.insert 1 "a" 1 [65]] ++ [StoreOp.purge 2 0])).seq + 1 :=
  ⟨rfl, by decide,
    (c8_id_assignment emptyStorage ([StoreOp.insert 1 "a" 1 [65]] ++ [StoreOp.purge 2 0])
      [StoreOp.insert 1 "a" 1 [65]] [StoreOp.purge 2 0] rfl (by decide) 9 "b" 2 [66]).2.2.1⟩

end UDPMonitor
